import Mathlib

/-!
Shallow embedding of `src/extension.ts` from the vscode-graphiql extension.

The host facilities the extension calls into (the VS Code window/panel API,
the persisted key-value store, and the JavaScript `URL` constructor) are
external collaborators.  They are modelled as explicit inputs: the user's
answers to the two prompts, the value stored under the endpoint key, an
abstract URL parse function, and a stream of random draws for the nonce
generator.  The extension's observable behaviour is recorded as a trace of
events (prompts shown, state writes, error notifications, panel actions).
-/

namespace VscodeGraphiql

/-- The fixed persisted-state key from the source
(`const GLOBAL_STATE_ENDPOINT_KEY = "vscode-graphiql_graphqlEndpoint"`). -/
def GLOBAL_STATE_ENDPOINT_KEY : String := "vscode-graphiql_graphqlEndpoint"

/-- The `validateInput` callback passed to `showInputBox`: try to construct a
`URL` from the input; on success return `null` (no error), otherwise the
inline error text.  The JavaScript `URL` constructor is host-provided, so it
is the explicit parameter `parseURL` (returning `none` exactly when the
constructor throws). -/
def validateInput {URL : Type} (parseURL : String → Option URL) (urlString : String) :
    Option String :=
  match parseURL urlString with
  | some _ => none
  | none => some "Please enter a valid url"

/-- The item list passed to `showQuickPick`: the literal
`"Enter new endpoint"` option followed by the persisted value (which may be
the empty string, the absent sentinel). -/
def quickPickItems (lastUsedEndpoint : String) : List String :=
  ["Enter new endpoint", lastUsedEndpoint]

/-- Data flow of the `openBrowser` handler from the prompts to the final
`undefined` test: `pick` is what `showQuickPick` resolved with and `entry`
what `showInputBox` resolved with (`none` models `undefined`, i.e. a
cancelled prompt).  The input box is consulted only when the quick pick
returned the literal `"Enter new endpoint"`. -/
def resolveEndpoint (pick entry : Option String) : Option String :=
  if pick = some "Enter new endpoint" then entry else pick

/-- The character table of `getNonce`
(`"ABCDEFGHIJKLMNOPQRSTUVWXYZabcdefghijklmnopqrstuvwxyz0123456789"`). -/
def possible : String :=
  "ABCDEFGHIJKLMNOPQRSTUVWXYZabcdefghijklmnopqrstuvwxyz0123456789"

theorem possible_data_length : possible.data.length = 62 := rfl

/-- `getNonce`: 32 iterations, each appending
`possible.charAt(Math.floor(Math.random() * possible.length))`.  The host's
`Math.random()` returns a real in `[0, 1)`, so each floored draw is an index
in `[0, 61]`; the draws are modelled as the stream `rand`. -/
def getNonce (rand : Nat → Fin 62) : String :=
  (List.range 32).foldl
    (fun text i =>
      text.push (possible.data.get (Fin.cast possible_data_length.symm (rand i))))
    ""

/-- A webview handle as the host hands it to the extension: its CSP source
origin and its local-path-to-URI translation. -/
structure Webview where
  cspSource : String
  asWebviewUri : String → String

/-- `vscode.Uri.joinPath(extensionUri, "media", fileName)`. -/
def joinPathMedia (extensionUri fileName : String) : String :=
  extensionUri ++ "/media/" ++ fileName

/-- The `Content-Security-Policy` meta content attribute from the template
literal in `_getHtmlForWebview` (the `\x27` escapes are single quotes). -/
def cspMetaContent (cspSource nonce : String) : String :=
  "default-src \x27none\x27; connect-src *; font-src data:; style-src " ++
  cspSource ++
  " \x27unsafe-inline\x27; script-src \x27nonce-" ++
  nonce ++
  "\x27 \x27unsafe-eval\x27;"

/-- The template literal returned by `_getHtmlForWebview`, with the
interpolated expressions as parameters (the `\x7b`/`\x7d` escapes are the
braces of the inline JavaScript, and `\x27` a single quote). -/
def webviewHtml (cspSource scriptReactUri scriptReactDomUri scriptGraphiqlUri
    stylesGraphiqlUri stylesResetUri stylesAppUri nonce graphqlEndpoint : String) : String :=
  "<!DOCTYPE html>\n\t\t\t<html lang=\"en\">\n\t\t\t<head>\n\t\t\t\t<meta charset=\"UTF-8\">\n\t\t\t\t<!--\n\t\t\t\t\tUse a content security policy to only allow loading images from https or from our extension directory,\n\t\t\t\t\tand only allow scripts that have a specific nonce.\n\t\t\t\t-->\n\t\t\t\t<meta http-equiv=\"Content-Security-Policy\" content=\"" ++
  cspMetaContent cspSource nonce ++
  "\">\n\t\t\t\t<meta name=\"viewport\" content=\"width=device-width, initial-scale=1.0\">\n\t\t\t\t<link href=\"" ++
  stylesResetUri ++
  "\" rel=\"stylesheet\">\n\t\t\t\t<link href=\"" ++
  stylesGraphiqlUri ++
  "\" rel=\"stylesheet\">\n\t\t\t\t<link href=\"" ++
  stylesAppUri ++
  "\" rel=\"stylesheet\">\n\t\t\t\t<title>Graphiql</title>\n\t\t\t\t<script nonce=\"" ++
  nonce ++
  "\" src=\"" ++
  scriptReactUri ++
  "\"></script>\n\t\t\t\t<script nonce=\"" ++
  nonce ++
  "\" src=\"" ++
  scriptReactDomUri ++
  "\"></script>\n\t\t\t</head>\n\t\t\t<body>\n\t\t\t\t<div id=\"graphiql\">Loading...</div>\n\t\t\t\t<script nonce=\"" ++
  nonce ++
  "\" src=\"" ++
  scriptGraphiqlUri ++
  "\"></script>\n\t\t\t\t<script nonce=\"" ++
  nonce ++
  "\">\n\t\t\t\t\tReactDOM.render(\n\t\t\t\t\t\tReact.createElement(GraphiQL, \x7b\n\t\t\t\t\t\t\tfetcher: GraphiQL.createFetcher(\x7b\n\t\t\t\t\t\t\t\t" ++
  "url: \x27" ++
  graphqlEndpoint ++
  "\x27," ++
  "\n\t\t\t\t\t\t\t\x7d),\n\t\t\t\t\t\t\tdefaultEditorToolsVisibility: true,\n\t\t\t\t\t\t\x7d),\n\t\t\t\t\t\tdocument.getElementById(\x27graphiql\x27),\n\t\t\t\t\t);\n\t\t\t\t</script>\n\t\t\t</body>\n\t\t\t</html>"

/-- `_getHtmlForWebview`: resolve the six `media/` asset URIs through the
webview, generate a fresh nonce, and instantiate the template. -/
def getHtmlForWebview (webview : Webview) (extensionUri graphqlEndpoint : String)
    (rand : Nat → Fin 62) : String :=
  let scriptReactUri := webview.asWebviewUri (joinPathMedia extensionUri "react.production.min.js")
  let scriptReactDomUri :=
    webview.asWebviewUri (joinPathMedia extensionUri "react-dom.production.min.js")
  let scriptGraphiqlUri := webview.asWebviewUri (joinPathMedia extensionUri "graphiql.min.js")
  let stylesGraphiqlUri := webview.asWebviewUri (joinPathMedia extensionUri "graphiql.min.css")
  let stylesResetUri := webview.asWebviewUri (joinPathMedia extensionUri "reset.css")
  let stylesAppUri := webview.asWebviewUri (joinPathMedia extensionUri "app.css")
  let nonce := getNonce rand
  webviewHtml webview.cspSource scriptReactUri scriptReactDomUri scriptGraphiqlUri
    stylesGraphiqlUri stylesResetUri stylesAppUri nonce graphqlEndpoint

/-- The two subscriptions the constructor registers into `this._disposables`
(in this order): the `onDidDispose` listener and the `onDidReceiveMessage`
listener. -/
inductive Subscription where
  | onDidDisposeSub
  | onDidReceiveMessageSub
deriving DecidableEq, Repr

/-- The fields of a `GraphiqlPanel` instance (`_graphqlEnpoint` keeps the
source's spelling). -/
structure PanelData where
  graphqlEnpoint : String
  html : String
  disposables : List Subscription
  title : String
deriving DecidableEq, Repr

/-- The private `GraphiqlPanel` constructor: reads the endpoint from
persisted state (`globalState.get(GLOBAL_STATE_ENDPOINT_KEY, "")`, the
default already applied in `globalStateValue`), sets the title, renders the
html, and registers the two listeners. -/
def mkGraphiqlPanel (webview : Webview) (extensionUri globalStateValue : String)
    (rand : Nat → Fin 62) : PanelData :=
  let graphqlEnpoint := globalStateValue
  { graphqlEnpoint := graphqlEnpoint
    html := getHtmlForWebview webview extensionUri graphqlEnpoint rand
    disposables := [Subscription.onDidDisposeSub, Subscription.onDidReceiveMessageSub]
    title := "Graphiql" }

/-- The process-wide singleton state: `GraphiqlPanel.currentPanel`. -/
structure World where
  currentPanel : Option PanelData
deriving DecidableEq, Repr

/-- Observable events of a command run. -/
inductive Event where
  | quickPick (items : List String)
  | inputBox
  | write (value : String)
  | showError (message : String)
  | reveal
  | createPanel
deriving DecidableEq, Repr

/-- `GraphiqlPanel.createOrShow`: if a panel already exists, reveal it and
return; otherwise create a fresh webview panel and construct the instance
around it.  `webview` is the handle the host would supply on creation, and
`globalStateValue` the value currently persisted under the endpoint key. -/
def createOrShow (w : World) (webview : Webview) (extensionUri globalStateValue : String)
    (rand : Nat → Fin 62) : World × List Event :=
  match w.currentPanel with
  | some _ => (w, [Event.reveal])
  | none =>
      ({ currentPanel := some (mkGraphiqlPanel webview extensionUri globalStateValue rand) },
       [Event.createPanel])

/-- `GraphiqlPanel.revive`: unconditionally install a new instance built
around the host-supplied panel handle. -/
def revive (webview : Webview) (extensionUri globalStateValue : String)
    (rand : Nat → Fin 62) : World :=
  { currentPanel := some (mkGraphiqlPanel webview extensionUri globalStateValue rand) }

/-- The registered `deserializeWebviewPanel` callback: the caller-supplied
saved state `_state` is ignored; it resets the webview options and calls
`revive`. -/
def deserializeWebviewPanel (webview : Webview) (extensionUri globalStateValue : String)
    (rand : Nat → Fin 62) (_state : String) : World :=
  revive webview extensionUri globalStateValue rand

/-- Result of one run of the `openBrowser` command handler. -/
structure RunResult where
  trace : List Event
  stateAfter : String
  world : World

/-- The `vscode-graphiql.openBrowser` command handler.  `globalStateValue`
is the value persisted under the endpoint key when the run starts (`""` when
absent), `pick`/`entry` the host prompt results.  On a defined endpoint the
handler writes it to persisted state and then calls `createOrShow` (whose
constructor re-reads the freshly written value); on `undefined` it shows a
single error message and stops. -/
def openBrowserRun (w : World) (webview : Webview) (extensionUri globalStateValue : String)
    (pick entry : Option String) (rand : Nat → Fin 62) : RunResult :=
  let lastUsedEndpoint := globalStateValue
  let prompts :=
    if pick = some "Enter new endpoint" then
      [Event.quickPick (quickPickItems lastUsedEndpoint), Event.inputBox]
    else
      [Event.quickPick (quickPickItems lastUsedEndpoint)]
  match resolveEndpoint pick entry with
  | none =>
      { trace := prompts ++ [Event.showError "Can not open GraphiQL without a valid GraphQL endpoint"]
        stateAfter := globalStateValue
        world := w }
  | some graphqlEndpoint =>
      let res := createOrShow w webview extensionUri graphqlEndpoint rand
      { trace := prompts ++ Event.write graphqlEndpoint :: res.2
        stateAfter := graphqlEndpoint
        world := res.1 }

/-- A message posted by the webview content. -/
structure WebviewMessage where
  command : String
  text : String
deriving DecidableEq, Repr

/-- Calls the handler makes back into the host. -/
inductive HostCall where
  | showErrorMessage (message : String)
deriving DecidableEq, Repr

/-- The `onDidReceiveMessage` callback: a switch on `message.command` whose
only case is `"alert"` (forwarding `message.text` to `showErrorMessage`);
everything else falls through doing nothing. -/
def onDidReceiveMessage (message : WebviewMessage) : List HostCall :=
  if message.command = "alert" then [HostCall.showErrorMessage message.text] else []

/-- Chronological effect of the `while (this._disposables.length)` loop in
`dispose`: repeatedly pop the last element and release it.  Returns the
releases in the order they happen, paired with the list left behind. -/
def drainLoop (xs : List Subscription) : List Subscription × List Subscription :=
  if h : xs = [] then ([], xs)
  else
    let x := xs.getLast h
    let rest := drainLoop xs.dropLast
    (x :: rest.1, rest.2)
termination_by xs.length
decreasing_by
  simp only [List.length_dropLast]
  exact Nat.sub_lt (List.length_pos.mpr h) Nat.one_pos

/-- Observable outcome of `GraphiqlPanel.dispose`. -/
structure DisposeResult where
  world : World
  panelHandleDisposed : Bool
  released : List Subscription
  remaining : List Subscription

/-- `GraphiqlPanel.dispose`: clear `currentPanel`, dispose the underlying
panel handle, then drain `_disposables` by popping. -/
def dispose (p : PanelData) : DisposeResult :=
  let d := drainLoop p.disposables
  { world := { currentPanel := none }
    panelHandleDisposed := true
    released := d.1
    remaining := d.2 }

/-- Projection of a trace onto its persisted-state writes. -/
def writesOf (t : List Event) : List String :=
  t.filterMap fun e =>
    match e with
    | Event.write v => some v
    | _ => none

/-- Projection of a trace onto its error notifications. -/
def errorsOf (t : List Event) : List String :=
  t.filterMap fun e =>
    match e with
    | Event.showError m => some m
    | _ => none

/-- Projection of a trace onto its panel actions (reveal / create). -/
def panelActionsOf (t : List Event) : List Event :=
  t.filter fun e =>
    match e with
    | Event.reveal => true
    | Event.createPanel => true
    | _ => false

/-- Split a character list at every occurrence of `c`; delimiters are
dropped and empty segments kept (so `n` delimiters give `n + 1` segments). -/
def splitCh (c : Char) : List Char → List (List Char)
  | [] => [[]]
  | x :: xs =>
      if x = c then [] :: splitCh c xs
      else
        match splitCh c xs with
        | [] => [[x]]
        | g :: gs => (x :: g) :: gs

/-- Space-separated tokens of a character list, empty tokens dropped. -/
def tokensOf (d : List Char) : List (List Char) :=
  (splitCh ' ' d).filter fun t => decide (t ≠ [])

/-- First directive with the given name in a parsed policy. -/
def lookupDirective (directive : List Char) :
    List (List Char × List (List Char)) → Option (List (List Char))
  | [] => none
  | p :: ps => if p.1 = directive then some p.2 else lookupDirective directive ps

/-- The source-expression list of the named directive in a serialized
content-security policy: split into `;`-separated directives, tokenize each,
and return the values of the first directive whose name matches. -/
def cspDirectiveSources (csp directive : String) : List String :=
  let parsed := (splitCh ';' csp.data).filterMap fun d =>
    match tokensOf d with
    | [] => none
    | nm :: vs => some (nm, vs)
  match lookupDirective directive.data parsed with
  | some vs => vs.map String.mk
  | none => []

/-- `seg` occurs contiguously inside `l`. -/
def occursIn (seg l : List Char) : Prop :=
  ∃ s t, l = s ++ seg ++ t

/-! ### Helper lemmas -/

theorem data_append (a b : String) : (a ++ b).data = a.data ++ b.data := by
  cases a; cases b; rfl

theorem data_push (s : String) (c : Char) : (s.push c).data = s.data ++ [c] := by
  cases s; rfl

theorem mk_data (s : String) : String.mk s.data = s := by
  cases s; rfl

theorem mk_append (l₁ l₂ : List Char) : String.mk (l₁ ++ l₂) = String.mk l₁ ++ String.mk l₂ := by
  rfl

theorem length_eq_data_length (s : String) : s.length = s.data.length := by
  cases s; rfl

theorem occursIn_left {seg a : List Char} (b : List Char) (h : occursIn seg a) :
    occursIn seg (a ++ b) := by
  obtain ⟨s, t, rfl⟩ := h
  exact ⟨s, t ++ b, by simp⟩

theorem occursIn_right {seg b : List Char} (a : List Char) (h : occursIn seg b) :
    occursIn seg (a ++ b) := by
  obtain ⟨s, t, rfl⟩ := h
  exact ⟨a ++ s, t, by simp⟩

theorem foldl_push_data (f : Nat → Char) (l : List Nat) (s : String) :
    (l.foldl (fun t i => t.push (f i)) s).data = s.data ++ l.map f := by
  induction l generalizing s with
  | nil => simp
  | cons a l ih => simp [List.foldl_cons, ih, data_push]

theorem getNonce_data (rand : Nat → Fin 62) :
    (getNonce rand).data =
      (List.range 32).map
        (fun i => possible.data.get (Fin.cast possible_data_length.symm (rand i))) := by
  have h := foldl_push_data
    (fun i => possible.data.get (Fin.cast possible_data_length.symm (rand i)))
    (List.range 32) ""
  simpa [getNonce] using h

theorem splitCh_ne_nil (c : Char) : ∀ xs, splitCh c xs ≠ []
  | [] => by simp [splitCh]
  | x :: xs => by
      simp only [splitCh]
      split
      · simp
      · split <;> simp

theorem splitCh_cons_ne (c x : Char) (xs : List Char) (h : ¬ x = c) :
    splitCh c (x :: xs) = (x :: (splitCh c xs).headI) :: (splitCh c xs).tail := by
  simp only [splitCh, if_neg h]
  cases hs : splitCh c xs with
  | nil => exact absurd hs (splitCh_ne_nil c xs)
  | cons g gs => simp

theorem splitCh_append_no_delim (c : Char) (xs ys : List Char) (h : c ∉ xs) :
    splitCh c (xs ++ ys) = (xs ++ (splitCh c ys).headI) :: (splitCh c ys).tail := by
  induction xs with
  | nil =>
      simp only [List.nil_append]
      cases hs : splitCh c ys with
      | nil => exact absurd hs (splitCh_ne_nil c ys)
      | cons g gs => simp
  | cons x xs ih =>
      have hx : ¬ x = c := by
        intro e
        exact h (e ▸ List.mem_cons_self x xs)
      have hxs : c ∉ xs := fun hc => h (List.mem_cons_of_mem x hc)
      rw [List.cons_append, splitCh_cons_ne c x _ hx, ih hxs]
      simp

theorem splitCh_no_delim (c : Char) (xs : List Char) (h : c ∉ xs) :
    splitCh c xs = [xs] := by
  have h2 := splitCh_append_no_delim c xs [] h
  simpa [splitCh] using h2

theorem splitCh_delim (c : Char) (xs ys : List Char) (h : c ∉ xs) :
    splitCh c (xs ++ c :: ys) = xs :: splitCh c ys := by
  rw [splitCh_append_no_delim c xs _ h]
  have h2 : splitCh c (c :: ys) = [] :: splitCh c ys := by
    simp [splitCh]
  rw [h2]
  simp

theorem occursIn_self_append (s t : List Char) : occursIn s (s ++ t) :=
  ⟨[], t, by simp⟩

theorem occursIn_start3 (u e c t : List Char) :
    occursIn (u ++ (e ++ c)) (u ++ (e ++ (c ++ t))) :=
  ⟨[], t, by simp [List.append_assoc]⟩

set_option maxRecDepth 4000 in
/-- The rendered template embeds the fetcher url fragment
`url: '<endpoint>',` verbatim. -/
theorem fetcher_url_occursIn (cspSource sru srdu sgu stgu stru stau nonce ep : String) :
    occursIn ("url: \x27" ++ ep ++ "\x27,").data
      (webviewHtml cspSource sru srdu sgu stgu stru stau nonce ep).data := by
  simp only [webviewHtml, data_append, List.append_assoc]
  repeat first
    | exact occursIn_start3 _ _ _ _
    | apply occursIn_right

theorem fetcher_url_occursIn_html (webview : Webview) (extensionUri graphqlEndpoint : String)
    (rand : Nat → Fin 62) :
    occursIn ("url: \x27" ++ graphqlEndpoint ++ "\x27,").data
      (getHtmlForWebview webview extensionUri graphqlEndpoint rand).data := by
  simp only [getHtmlForWebview]
  exact fetcher_url_occursIn _ _ _ _ _ _ _ _ _

set_option maxRecDepth 4000 in
/-- The rendered template embeds the per-render nonce. -/
theorem nonce_occursIn_webviewHtml (cspSource sru srdu sgu stgu stru stau nonce ep : String) :
    occursIn nonce.data (webviewHtml cspSource sru srdu sgu stgu stru stau nonce ep).data := by
  simp only [webviewHtml, data_append, List.append_assoc]
  repeat first
    | exact occursIn_self_append _ _
    | apply occursIn_right

theorem drainLoop_eq (xs : List Subscription) : drainLoop xs = (xs.reverse, []) := by
  induction xs using List.reverseRecOn with
  | nil => simp [drainLoop]
  | append_singleton ys y ih =>
      rw [drainLoop]
      have hne : ¬ ys ++ [y] = [] := by simp
      rw [dif_neg hne]
      simp [List.getLast_append, List.dropLast_concat, ih]

/-! ### Claim theorems -/

/-- C1: at most one panel instance exists (`World.currentPanel` is the
singleton); when `createOrShow` is invoked while `currentPanel` is set, it
only reveals the existing panel and returns — the world is unchanged, the
same instance (with its rendered html and stored endpoint) stays current,
the only event is a reveal, and no panel is constructed. -/
theorem createOrShow_existing_only_reveals (w : World) (p : PanelData) (webview : Webview)
    (extensionUri globalStateValue : String) (rand : Nat → Fin 62)
    (h : w.currentPanel = some p) :
    (createOrShow w webview extensionUri globalStateValue rand).1 = w ∧
    (createOrShow w webview extensionUri globalStateValue rand).1.currentPanel = some p ∧
    (createOrShow w webview extensionUri globalStateValue rand).2 = [Event.reveal] ∧
    Event.createPanel ∉ (createOrShow w webview extensionUri globalStateValue rand).2 := by
  simp [createOrShow, h]

theorem createOrShow_existing_only_reveals_witness :
    (createOrShow ⟨some ⟨"e", "h", [], "Graphiql"⟩⟩ ⟨"csp", fun s => s⟩ "ext" "gs"
        (fun _ => 0)).1 = ⟨some ⟨"e", "h", [], "Graphiql"⟩⟩ ∧
    (createOrShow ⟨some ⟨"e", "h", [], "Graphiql"⟩⟩ ⟨"csp", fun s => s⟩ "ext" "gs"
        (fun _ => 0)).2 = [Event.reveal] :=
  ⟨(createOrShow_existing_only_reveals ⟨some ⟨"e", "h", [], "Graphiql"⟩⟩ ⟨"e", "h", [], "Graphiql"⟩
      ⟨"csp", fun s => s⟩ "ext" "gs" (fun _ => 0) rfl).1,
   (createOrShow_existing_only_reveals ⟨some ⟨"e", "h", [], "Graphiql"⟩⟩ ⟨"e", "h", [], "Graphiql"⟩
      ⟨"csp", fun s => s⟩ "ext" "gs" (fun _ => 0) rfl).2.2.1⟩

/-- C6: `deserializeWebviewPanel`/`revive` ignore the caller-supplied saved
state and rebuild the instance from the persisted endpoint, whose value is
embedded verbatim in the rendered document's fetcher configuration. -/
theorem revive_uses_persisted_endpoint (webview : Webview)
    (extensionUri globalStateValue : String) (rand : Nat → Fin 62) (state1 state2 : String) :
    deserializeWebviewPanel webview extensionUri globalStateValue rand state1 =
      deserializeWebviewPanel webview extensionUri globalStateValue rand state2 ∧
    ∃ p, (deserializeWebviewPanel webview extensionUri globalStateValue rand state1).currentPanel
        = some p ∧
      p.graphqlEnpoint = globalStateValue ∧
      occursIn ("url: \x27" ++ globalStateValue ++ "\x27,").data p.html.data :=
  ⟨rfl, mkGraphiqlPanel webview extensionUri globalStateValue rand, rfl, rfl,
    fetcher_url_occursIn_html webview extensionUri globalStateValue rand⟩

/-- C7: `dispose` clears the singleton, disposes the panel handle, and
releases every held subscription in reverse-registration order, leaving
none behind; a subsequent `createOrShow` then constructs a fresh instance. -/
theorem dispose_clears_singleton_and_releases (p : PanelData) (webview : Webview)
    (extensionUri globalStateValue : String) (rand : Nat → Fin 62) :
    (dispose p).world.currentPanel = none ∧
    (dispose p).panelHandleDisposed = true ∧
    (dispose p).released = p.disposables.reverse ∧
    (dispose p).remaining = [] ∧
    (createOrShow (dispose p).world webview extensionUri globalStateValue rand).2 =
      [Event.createPanel] ∧
    (createOrShow (dispose p).world webview extensionUri globalStateValue rand).1.currentPanel =
      some (mkGraphiqlPanel webview extensionUri globalStateValue rand) := by
  refine ⟨rfl, rfl, ?_, ?_, ?_, ?_⟩ <;> simp [dispose, drainLoop_eq, createOrShow]

/-- C8: the inbound message handler raises exactly one host error
notification carrying `message.text` verbatim iff the command is `"alert"`,
and performs no host call for any other command. -/
theorem onDidReceiveMessage_alert_iff (m : WebviewMessage) :
    (onDidReceiveMessage m = [HostCall.showErrorMessage m.text] ↔ m.command = "alert") ∧
    (¬ m.command = "alert" → onDidReceiveMessage m = []) := by
  by_cases h : m.command = "alert" <;> simp [onDidReceiveMessage, h]

theorem onDidReceiveMessage_alert_iff_witness :
    onDidReceiveMessage ⟨"other", "boom"⟩ = [] :=
  (onDidReceiveMessage_alert_iff ⟨"other", "boom"⟩).2 (by decide)

/-- C9: for every stream of random draws, the generated nonce has exactly 32
characters, each drawn from the alphanumeric table; the rendered document of
the same render embeds that nonce. -/
theorem getNonce_32_alphanumeric (rand : Nat → Fin 62) (webview : Webview)
    (extensionUri graphqlEndpoint : String) :
    (getNonce rand).length = 32 ∧
    (∀ c ∈ (getNonce rand).data, c ∈ possible.data ∧ c.isAlphanum = true) ∧
    occursIn (getNonce rand).data
      (getHtmlForWebview webview extensionUri graphqlEndpoint rand).data := by
  refine ⟨?_, ?_, ?_⟩
  · rw [length_eq_data_length, getNonce_data]
    simp
  · intro c hc
    rw [getNonce_data] at hc
    obtain ⟨i, hi, rfl⟩ := List.mem_map.mp hc
    have hmem : possible.data.get (Fin.cast possible_data_length.symm (rand i)) ∈ possible.data :=
      possible.data.get_mem _ _
    have hall : ∀ d ∈ possible.data, d.isAlphanum = true := by decide
    exact ⟨hmem, hall _ hmem⟩
  · simp only [getHtmlForWebview]
    exact nonce_occursIn_webviewHtml _ _ _ _ _ _ _ _ _

/-- C2: on a successful resolution the `openBrowser` run performs exactly
one persisted-state write (overwriting the prior value with the chosen
endpoint) before the panel action, and no error notification; on
cancellation it performs zero writes, no panel action, and exactly one
error notification, leaving state and world unchanged. -/
theorem openBrowser_side_effect_discipline (w : World) (webview : Webview)
    (extensionUri globalStateValue : String) (pick entry : Option String) (rand : Nat → Fin 62) :
    (resolveEndpoint pick entry = none →
      writesOf (openBrowserRun w webview extensionUri globalStateValue pick entry rand).trace
        = [] ∧
      panelActionsOf (openBrowserRun w webview extensionUri globalStateValue pick entry rand).trace
        = [] ∧
      errorsOf (openBrowserRun w webview extensionUri globalStateValue pick entry rand).trace
        = ["Can not open GraphiQL without a valid GraphQL endpoint"] ∧
      (openBrowserRun w webview extensionUri globalStateValue pick entry rand).stateAfter
        = globalStateValue ∧
      (openBrowserRun w webview extensionUri globalStateValue pick entry rand).world = w) ∧
    (∀ v, resolveEndpoint pick entry = some v →
      writesOf (openBrowserRun w webview extensionUri globalStateValue pick entry rand).trace
        = [v] ∧
      (openBrowserRun w webview extensionUri globalStateValue pick entry rand).stateAfter = v ∧
      errorsOf (openBrowserRun w webview extensionUri globalStateValue pick entry rand).trace
        = [] ∧
      ∃ prompts panelAction,
        (openBrowserRun w webview extensionUri globalStateValue pick entry rand).trace =
          prompts ++ [Event.write v, panelAction] ∧
        panelActionsOf prompts = [] ∧ writesOf prompts = [] ∧
        (panelAction = Event.reveal ∨ panelAction = Event.createPanel)) := by
  constructor
  · intro h
    by_cases hp : pick = some "Enter new endpoint"
    · subst hp
      simp [openBrowserRun, h, writesOf, errorsOf, panelActionsOf]
    · simp [openBrowserRun, h, hp, writesOf, errorsOf, panelActionsOf]
  · intro v h
    by_cases hp : pick = some "Enter new endpoint"
    · subst hp
      cases hw : w.currentPanel with
      | none =>
        refine ⟨?_, ?_, ?_,
          [Event.quickPick (quickPickItems globalStateValue), Event.inputBox],
          Event.createPanel, ?_, ?_, ?_, Or.inr rfl⟩ <;>
          simp [openBrowserRun, h, createOrShow, hw, writesOf, errorsOf, panelActionsOf]
      | some q =>
        refine ⟨?_, ?_, ?_,
          [Event.quickPick (quickPickItems globalStateValue), Event.inputBox],
          Event.reveal, ?_, ?_, ?_, Or.inl rfl⟩ <;>
          simp [openBrowserRun, h, createOrShow, hw, writesOf, errorsOf, panelActionsOf]
    · cases hw : w.currentPanel with
      | none =>
        refine ⟨?_, ?_, ?_, [Event.quickPick (quickPickItems globalStateValue)],
          Event.createPanel, ?_, ?_, ?_, Or.inr rfl⟩ <;>
          simp [openBrowserRun, h, hp, createOrShow, hw, writesOf, errorsOf, panelActionsOf]
      | some q =>
        refine ⟨?_, ?_, ?_, [Event.quickPick (quickPickItems globalStateValue)],
          Event.reveal, ?_, ?_, ?_, Or.inl rfl⟩ <;>
          simp [openBrowserRun, h, hp, createOrShow, hw, writesOf, errorsOf, panelActionsOf]

theorem openBrowser_side_effect_discipline_witness :
    (writesOf (openBrowserRun ⟨none⟩ ⟨"c", fun s => s⟩ "/e" "old" none none (fun _ => 0)).trace
      = [] ∧
     errorsOf (openBrowserRun ⟨none⟩ ⟨"c", fun s => s⟩ "/e" "old" none none (fun _ => 0)).trace
      = ["Can not open GraphiQL without a valid GraphQL endpoint"]) ∧
    (writesOf (openBrowserRun ⟨none⟩ ⟨"c", fun s => s⟩ "/e" "old" (some "old") none
        (fun _ => 0)).trace = ["old"] ∧
     (openBrowserRun ⟨none⟩ ⟨"c", fun s => s⟩ "/e" "old" (some "old") none
        (fun _ => 0)).stateAfter = "old") :=
  ⟨⟨((openBrowser_side_effect_discipline ⟨none⟩ ⟨"c", fun s => s⟩ "/e" "old" none none
        (fun _ => 0)).1 (by decide)).1,
    ((openBrowser_side_effect_discipline ⟨none⟩ ⟨"c", fun s => s⟩ "/e" "old" none none
        (fun _ => 0)).1 (by decide)).2.2.1⟩,
   ⟨((openBrowser_side_effect_discipline ⟨none⟩ ⟨"c", fun s => s⟩ "/e" "old" (some "old") none
        (fun _ => 0)).2 "old" (by decide)).1,
    ((openBrowser_side_effect_discipline ⟨none⟩ ⟨"c", fun s => s⟩ "/e" "old" (some "old") none
        (fun _ => 0)).2 "old" (by decide)).2.1⟩⟩

/-- C3: the free-text validator accepts exactly the strings the URL
constructor parses (no scheme or host restriction beyond parseability),
rejects every other string with the inline error `"Please enter a valid
url"`, and an accepted entry is persisted exactly as entered. -/
theorem validateInput_url_parse_iff (URL : Type) (parseURL : String → Option URL)
    (urlString : String) :
    (validateInput parseURL urlString = none ↔ (parseURL urlString).isSome = true) ∧
    ((parseURL urlString).isSome = false →
      validateInput parseURL urlString = some "Please enter a valid url") ∧
    (∀ (w : World) (webview : Webview) (extensionUri globalStateValue v : String)
        (rand : Nat → Fin 62),
      writesOf (openBrowserRun w webview extensionUri globalStateValue
          (some "Enter new endpoint") (some v) rand).trace = [v] ∧
      (openBrowserRun w webview extensionUri globalStateValue
          (some "Enter new endpoint") (some v) rand).stateAfter = v) := by
  refine ⟨?_, ?_, ?_⟩
  · cases hp : parseURL urlString <;> simp [validateInput, hp]
  · intro h
    cases hp : parseURL urlString
    · simp [validateInput, hp]
    · rw [hp] at h
      simp at h
  · intro w webview extensionUri globalStateValue v rand
    cases hw : w.currentPanel <;>
      constructor <;>
        simp [openBrowserRun, resolveEndpoint, createOrShow, hw, writesOf]

theorem validateInput_url_parse_iff_witness :
    validateInput (fun s => if s = "https://ok" then some () else none) "not a url"
      = some "Please enter a valid url" :=
  (validateInput_url_parse_iff Unit (fun s => if s = "https://ok" then some () else none)
    "not a url").2.1 (by decide)

/-- C4 (amended): the free-text input box is shown exactly when the quick
pick resolved with the literal `"Enter new endpoint"` — an empty persisted
value alone does not trigger the free-text prompt. -/
theorem inputBox_shown_iff_enter_new (w : World) (webview : Webview)
    (extensionUri globalStateValue : String) (pick entry : Option String) (rand : Nat → Fin 62) :
    Event.inputBox ∈ (openBrowserRun w webview extensionUri globalStateValue pick entry rand).trace
      ↔ pick = some "Enter new endpoint" := by
  by_cases hp : pick = some "Enter new endpoint"
  · subst hp
    cases hr : resolveEndpoint (some "Enter new endpoint") entry <;>
      cases hw : w.currentPanel <;>
        simp [openBrowserRun, hr, hw, createOrShow]
  · cases hr : resolveEndpoint pick entry <;>
      cases hw : w.currentPanel <;>
        simp [openBrowserRun, hp, hr, hw, createOrShow]

/-- C4 counterexample: with no persisted value (empty-string sentinel) the
run in which the user picks the offered empty-string item never shows the
free-text prompt — refuting the claim that an absent persisted value always
leads to the free-text prompt — and the empty string is written instead. -/
theorem empty_persisted_no_inputBox_counterexample :
    "" ∈ quickPickItems "" ∧
    Event.inputBox ∉
      (openBrowserRun ⟨none⟩ ⟨"vscode-resource:", fun s => s⟩ "/ext" "" (some "") none
          (fun _ => 0)).trace ∧
    writesOf
      (openBrowserRun ⟨none⟩ ⟨"vscode-resource:", fun s => s⟩ "/ext" "" (some "") none
          (fun _ => 0)).trace = [""] := by
  refine ⟨by decide, ?_, ?_⟩ <;>
    simp [openBrowserRun, resolveEndpoint, createOrShow, writesOf, quickPickItems]

/-- C10: the quick pick always offers the persisted value (even the
empty-string sentinel) next to `"Enter new endpoint"`; any selected option
other than `"Enter new endpoint"` — the empty string included — bypasses the
free-text prompt and its validation, is written to persisted state verbatim,
and (when a panel is constructed in this run) becomes the endpoint embedded
in the rendered content's fetcher configuration. -/
theorem quickPick_choice_accepted_verbatim (w : World) (webview : Webview)
    (extensionUri globalStateValue v : String) (entry : Option String) (rand : Nat → Fin 62)
    (hv : ¬ v = "Enter new endpoint") :
    quickPickItems globalStateValue = ["Enter new endpoint", globalStateValue] ∧
    Event.inputBox ∉
      (openBrowserRun w webview extensionUri globalStateValue (some v) entry rand).trace ∧
    writesOf (openBrowserRun w webview extensionUri globalStateValue (some v) entry rand).trace
      = [v] ∧
    (openBrowserRun w webview extensionUri globalStateValue (some v) entry rand).stateAfter = v ∧
    (w.currentPanel = none →
      ∃ p, (openBrowserRun w webview extensionUri globalStateValue (some v) entry
          rand).world.currentPanel = some p ∧
        p.graphqlEnpoint = v ∧
        occursIn ("url: \x27" ++ v ++ "\x27,").data p.html.data) := by
  have hp : ¬ (some v = some "Enter new endpoint") := by simpa using hv
  refine ⟨rfl, ?_, ?_, ?_, ?_⟩
  · cases hw : w.currentPanel <;>
      simp [openBrowserRun, resolveEndpoint, hp, createOrShow, hw]
  · cases hw : w.currentPanel <;>
      simp [openBrowserRun, resolveEndpoint, hp, createOrShow, hw, writesOf]
  · cases hw : w.currentPanel <;>
      simp [openBrowserRun, resolveEndpoint, hp, createOrShow, hw]
  · intro hw
    refine ⟨mkGraphiqlPanel webview extensionUri v rand, ?_, rfl,
      fetcher_url_occursIn_html webview extensionUri v rand⟩
    simp [openBrowserRun, resolveEndpoint, hp, createOrShow, hw]

/-- C5 counterexample: for a concrete render (cspSource
`vscode-resource:`, nonce drawn as 32 `A`s), the `script-src` directive of
the generated policy contains the source expression `'unsafe-eval'`, which
is not the nonce tag — refuting the claim that no script source other than
the nonce tag is allowed. -/
theorem csp_scriptSrc_unsafe_eval_counterexample :
    getNonce (fun _ => 0) = "AAAAAAAAAAAAAAAAAAAAAAAAAAAAAAAA" ∧
    "\x27unsafe-eval\x27" ∈
      cspDirectiveSources
        (cspMetaContent "vscode-resource:" "AAAAAAAAAAAAAAAAAAAAAAAAAAAAAAAA")
        "script-src" ∧
    ¬ "\x27unsafe-eval\x27" = "\x27nonce-AAAAAAAAAAAAAAAAAAAAAAAAAAAAAAAA\x27" := by
  decide

/-- C5 (amended): for every render (any csp source and nonce free of the
`;`/space separator characters), the policy parses into exactly the
directives `default-src 'none'` (default-deny), `connect-src *`,
`font-src data:`, `style-src cspSource 'unsafe-inline'`, and
`script-src 'nonce-N' 'unsafe-eval'` — scripts are permitted when tagged
with the per-render nonce or, additionally, via dynamic eval
(`'unsafe-eval'`); no further script source is allowed. -/
theorem csp_directives_exact (s n : String) (hs0 : s.data ≠ [])
    (hs1 : (';' : Char) ∉ s.data) (hs2 : (' ' : Char) ∉ s.data)
    (hn1 : (';' : Char) ∉ n.data) (hn2 : (' ' : Char) ∉ n.data) :
    cspDirectiveSources (cspMetaContent s n) "default-src" = ["\x27none\x27"] ∧
    cspDirectiveSources (cspMetaContent s n) "connect-src" = ["*"] ∧
    cspDirectiveSources (cspMetaContent s n) "font-src" = ["data:"] ∧
    cspDirectiveSources (cspMetaContent s n) "style-src" = [s, "\x27unsafe-inline\x27"] ∧
    cspDirectiveSources (cspMetaContent s n) "script-src" =
      ["\x27nonce-" ++ (n ++ "\x27"), "\x27unsafe-eval\x27"] := by
  have hA : ("default-src \x27none\x27; connect-src *; font-src data:; style-src " : String).data
      = "default-src \x27none\x27".data ++ ';' ::
          (" connect-src *".data ++ ';' ::
            (" font-src data:".data ++ ';' :: " style-src ".data)) := rfl
  have hB : (" \x27unsafe-inline\x27; script-src \x27nonce-" : String).data
      = " \x27unsafe-inline\x27".data ++ ';' :: " script-src \x27nonce-".data := rfl
  have hC : ("\x27 \x27unsafe-eval\x27;" : String).data
      = "\x27 \x27unsafe-eval\x27".data ++ ';' :: [] := rfl
  have hd : (cspMetaContent s n).data =
      "default-src \x27none\x27".data ++ ';' ::
        (" connect-src *".data ++ ';' ::
          (" font-src data:".data ++ ';' ::
            ((" style-src ".data ++ (s.data ++ " \x27unsafe-inline\x27".data)) ++ ';' ::
              ((" script-src \x27nonce-".data ++ (n.data ++ "\x27 \x27unsafe-eval\x27".data))
                ++ ';' :: [])))) := by
    simp only [cspMetaContent, data_append, hA, hB, hC, List.append_assoc, List.cons_append,
      List.nil_append, List.append_nil]
  have hstyle_ne : (';' : Char) ∉ " style-src ".data ++ (s.data ++ " \x27unsafe-inline\x27".data) := by
    intro hmem
    rcases List.mem_append.mp hmem with h | h
    · exact absurd h (by decide)
    · rcases List.mem_append.mp h with h | h
      · exact hs1 h
      · exact absurd h (by decide)
  have hscript_ne :
      (';' : Char) ∉ " script-src \x27nonce-".data ++ (n.data ++ "\x27 \x27unsafe-eval\x27".data) := by
    intro hmem
    rcases List.mem_append.mp hmem with h | h
    · exact absurd h (by decide)
    · rcases List.mem_append.mp h with h | h
      · exact hn1 h
      · exact absurd h (by decide)
  have hsplit : splitCh ';' (cspMetaContent s n).data =
      ["default-src \x27none\x27".data,
       " connect-src *".data,
       " font-src data:".data,
       " style-src ".data ++ (s.data ++ " \x27unsafe-inline\x27".data),
       " script-src \x27nonce-".data ++ (n.data ++ "\x27 \x27unsafe-eval\x27".data),
       []] := by
    rw [hd]
    rw [splitCh_delim ';' _ _ (by decide)]
    rw [splitCh_delim ';' _ _ (by decide)]
    rw [splitCh_delim ';' _ _ (by decide)]
    rw [splitCh_delim ';' _ _ hstyle_ne]
    rw [splitCh_delim ';' _ _ hscript_ne]
    simp [splitCh]
  have t1 : tokensOf ("default-src \x27none\x27".data)
      = ["default-src".data, "\x27none\x27".data] := by decide
  have t2 : tokensOf (" connect-src *".data) = ["connect-src".data, "*".data] := by decide
  have t3 : tokensOf (" font-src data:".data) = ["font-src".data, "data:".data] := by decide
  have t4 : tokensOf (" style-src ".data ++ (s.data ++ " \x27unsafe-inline\x27".data))
      = ["style-src".data, s.data, "\x27unsafe-inline\x27".data] := by
    have l1 : (" style-src " : String).data = ' ' :: ("style-src".data ++ [' ']) := rfl
    have l2 : (" \x27unsafe-inline\x27" : String).data = ' ' :: "\x27unsafe-inline\x27".data := rfl
    have hform : " style-src ".data ++ (s.data ++ " \x27unsafe-inline\x27".data) =
        [] ++ ' ' :: ("style-src".data ++ ' ' :: (s.data ++ ' ' :: "\x27unsafe-inline\x27".data)) := by
      rw [l1, l2]
      simp [List.append_assoc]
    simp only [tokensOf]
    rw [hform]
    rw [splitCh_delim ' ' _ _ (by decide)]
    rw [splitCh_delim ' ' _ _ (by decide)]
    rw [splitCh_delim ' ' _ _ hs2]
    rw [splitCh_no_delim ' ' _ (by decide)]
    simp [List.filter_cons, hs0]
  have t5 : tokensOf (" script-src \x27nonce-".data ++ (n.data ++ "\x27 \x27unsafe-eval\x27".data))
      = ["script-src".data, "\x27nonce-".data ++ (n.data ++ ['\x27']),
         "\x27unsafe-eval\x27".data] := by
    have l3 : (" script-src \x27nonce-" : String).data
        = ' ' :: ("script-src".data ++ ' ' :: "\x27nonce-".data) := rfl
    have l4 : ("\x27 \x27unsafe-eval\x27" : String).data
        = '\x27' :: ' ' :: "\x27unsafe-eval\x27".data := rfl
    have hform : " script-src \x27nonce-".data ++ (n.data ++ "\x27 \x27unsafe-eval\x27".data) =
        [] ++ ' ' :: ("script-src".data ++ ' ' ::
          (("\x27nonce-".data ++ (n.data ++ ['\x27'])) ++ ' ' :: "\x27unsafe-eval\x27".data)) := by
      rw [l3, l4]
      simp [List.append_assoc]
    have hnonce_tok_ne : (' ' : Char) ∉ "\x27nonce-".data ++ (n.data ++ ['\x27']) := by
      intro hmem
      rcases List.mem_append.mp hmem with h | h
      · exact absurd h (by decide)
      · rcases List.mem_append.mp h with h | h
        · exact hn2 h
        · exact absurd h (by decide)
    have hnonce_tok_nil : "\x27nonce-".data ++ (n.data ++ ['\x27']) ≠ [] := by
      simp
    simp only [tokensOf]
    rw [hform]
    rw [splitCh_delim ' ' _ _ (by decide)]
    rw [splitCh_delim ' ' _ _ (by decide)]
    rw [splitCh_delim ' ' _ _ hnonce_tok_ne]
    rw [splitCh_no_delim ' ' _ (by decide)]
    simp [List.filter_cons, hnonce_tok_nil]
  have t6 : tokensOf ([] : List Char) = [] := by decide
  have hparsed : (splitCh ';' (cspMetaContent s n).data).filterMap (fun d =>
      match tokensOf d with
      | [] => none
      | nm :: vs => some (nm, vs)) =
      [("default-src".data, ["\x27none\x27".data]),
       ("connect-src".data, ["*".data]),
       ("font-src".data, ["data:".data]),
       ("style-src".data, [s.data, "\x27unsafe-inline\x27".data]),
       ("script-src".data,
        ["\x27nonce-".data ++ (n.data ++ ['\x27']), "\x27unsafe-eval\x27".data])] := by
    rw [hsplit]
    simp only [List.filterMap_cons, List.filterMap_nil, t1, t2, t3, t4, t5, t6]
  have hmk : String.mk ('\x27' :: 'n' :: 'o' :: 'n' :: 'c' :: 'e' :: '-' :: (n.data ++ ['\x27']))
      = "\x27nonce-" ++ (n ++ "\x27") := by
    have hl : '\x27' :: 'n' :: 'o' :: 'n' :: 'c' :: 'e' :: '-' :: (n.data ++ ['\x27'])
        = "\x27nonce-".data ++ (n.data ++ "\x27".data) := rfl
    rw [hl, ← data_append, ← data_append, mk_data]
  refine ⟨?_, ?_, ?_, ?_, ?_⟩ <;>
    · simp only [cspDirectiveSources]
      rw [hparsed]
      simp +decide [lookupDirective, mk_data, mk_append, hmk]

theorem csp_directives_exact_witness :
    cspDirectiveSources (cspMetaContent "vscode-resource:" "N") "script-src"
      = ["\x27nonce-" ++ ("N" ++ "\x27"), "\x27unsafe-eval\x27"] ∧
    cspDirectiveSources (cspMetaContent "vscode-resource:" "N") "default-src"
      = ["\x27none\x27"] :=
  ⟨(csp_directives_exact "vscode-resource:" "N" (by decide) (by decide) (by decide)
      (by decide) (by decide)).2.2.2.2,
   (csp_directives_exact "vscode-resource:" "N" (by decide) (by decide) (by decide)
      (by decide) (by decide)).1⟩

theorem quickPick_choice_accepted_verbatim_witness :
    writesOf (openBrowserRun ⟨none⟩ ⟨"vsc", fun s => s⟩ "/x" "" (some "") none
        (fun _ => 0)).trace = [""] ∧
    (openBrowserRun ⟨none⟩ ⟨"vsc", fun s => s⟩ "/x" "" (some "") none
        (fun _ => 0)).stateAfter = "" :=
  ⟨(quickPick_choice_accepted_verbatim ⟨none⟩ ⟨"vsc", fun s => s⟩ "/x" "" "" none
      (fun _ => 0) (by decide)).2.2.1,
   (quickPick_choice_accepted_verbatim ⟨none⟩ ⟨"vsc", fun s => s⟩ "/x" "" "" none
      (fun _ => 0) (by decide)).2.2.2.1⟩

end VscodeGraphiql
